import Mathlib

/-
Verification development for the 3D-Earth satellite position pipeline.

Shallow embedding of the satellite subsystem of the repository:
- the Propagation Worker (sgp4-worker source, self.onmessage),
- the main-thread fallback (script.js, updateTLEPositionsFallback),
- the double-buffer store (script.js, setupSgp4Worker positions handler),
- the interpolation clock (script.js, animate u_interp advance),
- the element-set parser and buffer allocation (script.js, fetchTLES),
- the synthetic satellite generator (script.js, createSatellites /
  animateSyntheticSatellites),
- the worker lifecycle (script.js, ready handler / startTleUpdateLoop).

Scalars held in Float32Array buffers are modelled as real numbers; the
external satellite.js library (twoline2satrec / propagate / eciToGeodetic
at a fixed call time and sidereal time) is modelled as an oracle that, per
element entry, either yields geodetic latitude/longitude in radians,
reports a missing position (propagate(...).position is null), or raises.
Both the worker and the fallback invoke exactly this call chain with the
same timestamp, so a single oracle argument serves both embeddings.
-/

/-- One element of tleData: { name, tle1, tle2 }.  A line is `none` when the
field is absent; the JavaScript truthiness test also rejects empty strings. -/
structure TleEntry where
  name : String
  tle1 : Option String
  tle2 : Option String
deriving DecidableEq

/-- JavaScript falsiness of an optional string field: absent or empty. -/
def falsy : Option String → Bool
  | none => true
  | some s => s.isEmpty

/-- Outcome of the satellite.js call chain for one entry at the fixed call
time: geodetic coordinates (radians), a null position, or a thrown error. -/
inductive SatOutcome where
  | geo (lat lon : ℝ)
  | nullPosition
  | raised

/-- Scene-space projection, embedded from the identical code in the worker
and in updateTLEPositionsFallback:
lon = geo.longitude*180/pi; lat = geo.latitude*180/pi;
phi = (90 - lat)*(pi/180); theta = (lon + 180)*(pi/180); r = 1.1;
x = r*sin(phi)*cos(theta); y = r*cos(phi); z = r*sin(phi)*sin(theta). -/
noncomputable def project (latRad lonRad : ℝ) : ℝ × ℝ × ℝ :=
  let lon := lonRad * 180 / Real.pi
  let lat := latRad * 180 / Real.pi
  let phi := (90 - lat) * (Real.pi / 180)
  let theta := (lon + 180) * (Real.pi / 180)
  let r : ℝ := 1.1
  (r * Real.sin phi * Real.cos theta, r * Real.cos phi,
    r * Real.sin phi * Real.sin theta)

/-- Per-entry body of the worker 'update' loop (sgp4-worker source):
absent/empty lines write (0,0,0); a null position writes (0,0,0); the catch
arm writes (0,0,0); on success the projected point is written. -/
noncomputable def workerEntry (sat : TleEntry → SatOutcome) (e : TleEntry) :
    ℝ × ℝ × ℝ :=
  if falsy e.tle1 || falsy e.tle2 then (0, 0, 0)
  else
    match sat e with
    | .geo lat lon => project lat lon
    | .nullPosition => (0, 0, 0)
    | .raised => (0, 0, 0)

/-- Triple flattened into buffer order x, y, z. -/
def tripleToList (p : ℝ × ℝ × ℝ) : List ℝ := [p.1, p.2.1, p.2.2]

/-- The worker 'update' output buffer: out has length tleData.length * 3 and
slot i holds workerEntry of entry i. -/
noncomputable def workerOut (sat : TleEntry → SatOutcome)
    (tleData : List TleEntry) : List ℝ :=
  tleData.flatMap (fun e => tripleToList (workerEntry sat e))

/-- Reply messages posted by the worker. -/
inductive WReply where
  | ready (satlib : Bool) (count : ℕ)
  | positions (buf : List ℝ)

/-- The worker's 'update' message branch: when the library did not load the
reply is a zero buffer of length tleData.length * 3, otherwise the computed
buffer; a 'positions' reply is posted in both cases. -/
noncomputable def onmessageUpdate (satlibLoaded : Bool)
    (sat : TleEntry → SatOutcome) (tleData : List TleEntry) : WReply :=
  if satlibLoaded = false then
    .positions (List.replicate (tleData.length * 3) 0)
  else
    .positions (workerOut sat tleData)

/-- The worker's 'setTLE' message branch: the readiness acknowledgment
carries the library flag and the element count. -/
def onmessageSetTLE (satlibLoaded : Bool) (tleData : List TleEntry) : WReply :=
  .ready satlibLoaded tleData.length

/-- Per-entry body of updateTLEPositionsFallback (script.js): absent/empty
lines keep the existing next-buffer slot (default (1.1, 0, 0) without a
buffer); a null position leaves the zero-initialised slot untouched (the
loop continues); the catch arm keeps the next-buffer slot (default
(0, 0, 0)); on success the projected point is written.  Buffer reads use a
0 default for out-of-range indices, which no stated theorem exercises. -/
noncomputable def fallbackEntry (sat : TleEntry → SatOutcome)
    (nextBuf : Option (List ℝ)) (i : ℕ) (e : TleEntry) : ℝ × ℝ × ℝ :=
  if falsy e.tle1 || falsy e.tle2 then
    match nextBuf with
    | some nb => (nb.getD (i * 3) 0, nb.getD (i * 3 + 1) 0, nb.getD (i * 3 + 2) 0)
    | none => (1.1, 0, 0)
  else
    match sat e with
    | .geo lat lon => project lat lon
    | .nullPosition => (0, 0, 0)
    | .raised =>
      match nextBuf with
      | some nb => (nb.getD (i * 3) 0, nb.getD (i * 3 + 1) 0, nb.getD (i * 3 + 2) 0)
      | none => (0, 0, 0)

/-- The fallback loop from index i onward. -/
noncomputable def fallbackArrAux (sat : TleEntry → SatOutcome)
    (nextBuf : Option (List ℝ)) : ℕ → List TleEntry → List ℝ
  | _, [] => []
  | i, e :: rest =>
    tripleToList (fallbackEntry sat nextBuf i e) ++
      fallbackArrAux sat nextBuf (i + 1) rest

/-- The temporary arr built by updateTLEPositionsFallback for the whole
collection (before it is installed into the double buffers). -/
noncomputable def updateTLEPositionsFallbackArr (sat : TleEntry → SatOutcome)
    (nextBuf : Option (List ℝ)) (tleData : List TleEntry) : List ℝ :=
  fallbackArrAux sat nextBuf 0 tleData

/-- Float32Array.prototype.set semantics on list-modelled buffers: a source
no longer than the target overwrites the target's head and keeps its tail
(a partial write when shorter); a longer source raises a RangeError,
modelled as none. -/
def fset (target src : List ℝ) : Option (List ℝ) :=
  if src.length ≤ target.length then some (src ++ target.drop src.length)
  else none

/-- Double-buffer store state: window._tleLatestBuffer, prevSatBuffer,
nextSatBuffer, the u_interp uniform, satInterpStart, and a flag standing
for the tlePoints object with its geometry/material/uniforms being
present (the handler's remaining guard conditions). -/
structure SatStore where
  latest : Option (List ℝ)
  prev : Option (List ℝ)
  next : Option (List ℝ)
  uInterp : ℝ
  interpStart : ℝ
  pointsReady : Bool

/-- The 'positions' message handler of setupSgp4Worker (the same install
sequence ends updateTLEPositionsFallback): _tleLatestBuffer is reallocated
on length mismatch and then overwritten, so it always ends equal to the
incoming buffer; when both double buffers and the points object exist,
prev.set(next) then next.set(arr) run (an escaping RangeError is none),
u_interp resets to 0 and satInterpStart restarts at the current time.
The needsUpdate flags are GPU-upload bookkeeping with no model content. -/
def positionsHandler (s : SatStore) (arr : List ℝ) (now : ℝ) :
    Option SatStore :=
  match s.prev, s.next with
  | some p, some n =>
    if s.pointsReady then
      match fset p n with
      | some p2 =>
        match fset n arr with
        | some n2 =>
          some { latest := some arr, prev := some p2, next := some n2,
                 uInterp := 0, interpStart := now, pointsReady := s.pointsReady }
        | none => none
      | none => none
    else some { s with latest := some arr }
  | _, _ => some { s with latest := some arr }

/-- satInterpDuration = 0.8 seconds (script.js). -/
noncomputable def satInterpDuration : ℝ := 0.8

/-- The blend factor computed each frame in animate():
t = Math.min(1.0, (now - satInterpStart) / satInterpDuration), applied
whenever satInterpStart > 0. -/
noncomputable def currentBlend (startT now : ℝ) : ℝ :=
  min 1 ((now - startT) / satInterpDuration)

/-- The identical ring seed written into both prevSatBuffer and
nextSatBuffer right after their allocation in fetchTLES: for each i,
a = (i/count)*2*pi, slot i = (1.1*cos a, 1.1*sin a*0.1, 1.1*sin a). -/
noncomputable def ringSeed (count : ℕ) : List ℝ :=
  (List.range count).flatMap (fun i =>
    let a := ((i : ℝ) / (count : ℝ)) * Real.pi * 2
    [1.1 * Real.cos a, 1.1 * Real.sin a * 0.1, 1.1 * Real.sin a])

/-- The element-set parsing loop of fetchTLES, run over the non-blank
trimmed lines: lines are consumed three at a time (name, tle1, tle2); a
missing or falsy tle1/tle2 breaks the loop, returning the entries so far. -/
def parseTriples : List String → List TleEntry
  | name :: l1 :: l2 :: rest =>
    if l1.isEmpty || l2.isEmpty then []
    else ⟨name, some l1, some l2⟩ :: parseTriples rest
  | _ => []

/-- Line preprocessing of fetchTLES: the raw split lines are trimmed and
blank lines are dropped (text.split, map trim, filter Boolean). -/
def fetchLinesPipeline (raw : List String) : List String :=
  (raw.map String.trim).filter (fun l => !l.isEmpty)

/-- Entry construction of fetchTLES from the raw split lines. -/
def fetchParse (raw : List String) : List TleEntry :=
  parseTriples (fetchLinesPipeline raw)

/-- SYNTHETIC_SAT_COUNT = 2000 (script.js). -/
def SYNTHETIC_SAT_COUNT : ℕ := 2000

/-- Per-body parameters of the synthetic satellite population. -/
structure SynthParam where
  altitude : ℝ
  speed : ℝ
  phase : ℝ
  inclination : ℝ

/-- Parameter generation in createSatellites: for each of the
SYNTHETIC_SAT_COUNT bodies, four Math.random() draws are consumed in
order (altitude, speed, phase, inclination); rand models the stream. -/
noncomputable def genSyntheticParams (rand : ℕ → ℝ) : List SynthParam :=
  (List.range SYNTHETIC_SAT_COUNT).map (fun i =>
    { altitude := 1.05 + rand (4 * i) * 0.5
      speed := 0.002 + rand (4 * i + 1) * 0.01
      phase := rand (4 * i + 2) * Real.pi * 2
      inclination := rand (4 * i + 3) * Real.pi })

/-- One frame of animateSyntheticSatellites for one body: the phase
advances by the speed first, then the position is computed from the
updated phase as (r*cos a, r*sin a*sin inc, r*sin a*cos inc). -/
noncomputable def animateSyntheticStep (p : SynthParam) :
    SynthParam × (ℝ × ℝ × ℝ) :=
  let p2 : SynthParam := { p with phase := p.phase + p.speed }
  let a := p2.phase
  (p2, (p2.altitude * Real.cos a,
        p2.altitude * Real.sin a * Real.sin p2.inclination,
        p2.altitude * Real.sin a * Real.cos p2.inclination))

/-- The tleData installed by the catch arm of fetchTLES (element fetch
failed): twelve placeholder entries named SYNTH-i with empty lines. -/
def synthFallbackTleData : List TleEntry :=
  (List.range 12).map (fun i => ⟨"SYNTH-" ++ toString i, some "", some ""⟩)

/-- The static positions the catch arm of fetchTLES writes for its twelve
placeholder entries: a flattened ring, a = (i/12)*2*pi,
slot i = (1.1*cos a, 1.1*sin a*0.2, 1.1*sin a). -/
noncomputable def synthFallbackPositions : List ℝ :=
  (List.range 12).flatMap (fun i =>
    let a := ((i : ℝ) / 12) * Real.pi * 2
    [1.1 * Real.cos a, 1.1 * Real.sin a * 0.2, 1.1 * Real.sin a])

/-- Events touching the sgp4Worker handle: a readiness acknowledgment
from worker w, a tick of the periodic update timer, and a
setupSgp4Worker call (guarded by the handle being empty, as at its one
call site after the initial setup). -/
inductive WEv where
  | readyMsg (w : ℕ) (satlib : Bool)
  | tick
  | create
deriving DecidableEq

/-- Worker lifecycle state: the sgp4Worker handle, worker instances
terminated so far, worker instances that have been posted an update
message (most recent first), how often the main-thread fallback ran, and
a counter supplying fresh instance identities. -/
structure WState where
  current : Option ℕ
  terminated : List ℕ
  sent : List ℕ
  fallbackRuns : ℕ
  nextId : ℕ
deriving DecidableEq

/-- One event step: the ready handler with satlib=false terminates and
discards the current worker (messages from other instances no longer have
a handler and do nothing); a timer tick posts update to the current
worker when one exists and otherwise runs updateTLEPositionsFallback; a
create installs a fresh instance only when no handle is held. -/
def workerStep (s : WState) : WEv → WState
  | .readyMsg w satlib =>
    if s.current = some w ∧ satlib = false then
      { s with current := none, terminated := w :: s.terminated }
    else s
  | .tick =>
    match s.current with
    | some w => { s with sent := w :: s.sent }
    | none => { s with fallbackRuns := s.fallbackRuns + 1 }
  | .create =>
    match s.current with
    | some _ => s
    | none => { s with current := some s.nextId, nextId := s.nextId + 1 }

/-- Run of the lifecycle machine over an event trace. -/
def workerRun (s : WState) (evs : List WEv) : WState :=
  List.foldl workerStep s evs

/-
Helper lemmas and concrete fixtures shared across the development.
-/

/-- A flatMap whose blocks all have length 3 produces 3 times as many
scalars as there are inputs. -/
theorem flatMap_const_length {β : Type} (f : β → List ℝ)
    (hf : ∀ b, (f b).length = 3) :
    ∀ l : List β, (l.flatMap f).length = 3 * l.length := by
  intro l
  induction l with
  | nil => simp
  | cons a t ih => simp [ih, hf a]; omega

/-- Triples flatten to three scalars. -/
theorem tripleToList_length (p : ℝ × ℝ × ℝ) : (tripleToList p).length = 3 := by
  simp [tripleToList]

/-- The fallback loop emits three scalars per entry, from any start index. -/
theorem fallbackArrAux_length (sat : TleEntry → SatOutcome)
    (nextBuf : Option (List ℝ)) :
    ∀ (tleData : List TleEntry) (i : ℕ),
      (fallbackArrAux sat nextBuf i tleData).length = 3 * tleData.length := by
  intro tleData
  induction tleData with
  | nil => intro i; simp [fallbackArrAux]
  | cons e t ih =>
    intro i
    simp [fallbackArrAux, tripleToList, ih (i + 1)]
    omega

/-- Fixture oracle: propagation always reports a missing position. -/
def satNullK : TleEntry → SatOutcome := fun _ => .nullPosition

/-- Fixture oracle: propagation always succeeds at geodetic (0, 0). -/
noncomputable def satGeoK : TleEntry → SatOutcome := fun _ => .geo 0 0

/-- Fixture collection: one entry with both lines present. -/
def tleISSK : List TleEntry := [⟨"ISS", some "1 25544", some "2 25544"⟩]

/-- Fixture entry with an absent first line. -/
def tleAbsentK : TleEntry := ⟨"A", none, some "1 25544"⟩

/-- Claim C10: when the propagation library failed to load inside the
worker, every update message still receives a positions reply carrying an
all-zero buffer of length 3 times the held collection length, rather than
no reply or an error. -/
theorem update_reply_zero_buffer_when_satlib_missing (satlibLoaded : Bool)
    (sat : TleEntry → SatOutcome) (tleData : List TleEntry)
    (h : satlibLoaded = false) :
    onmessageUpdate satlibLoaded sat tleData =
      .positions (List.replicate (tleData.length * 3) 0) ∧
    (List.replicate (tleData.length * 3) (0 : ℝ)).length = 3 * tleData.length ∧
    ∀ x ∈ List.replicate (tleData.length * 3) (0 : ℝ), x = 0 := by
  subst h
  refine ⟨by simp [onmessageUpdate], by simp [Nat.mul_comm], ?_⟩
  intro x hx
  exact List.eq_of_mem_replicate hx

/-- Witness for C10 at a concrete collection of two entries. -/
theorem update_reply_zero_buffer_when_satlib_missing_wit :
    onmessageUpdate false satNullK
        [⟨"A", some "1", some "2"⟩, ⟨"B", none, none⟩] =
      .positions (List.replicate 6 0) :=
  (update_reply_zero_buffer_when_satlib_missing false satNullK
    [⟨"A", some "1", some "2"⟩, ⟨"B", none, none⟩] rfl).1

/-- Claim C5: between two consecutive installs the blend factor read each
frame is monotonically non-decreasing in wall-clock time, stays within
[0, 1], and equals exactly 1 at every read at or after
startTime + satInterpDuration. -/
theorem blend_monotone_clamped (startT now1 now2 : ℝ)
    (h1 : startT ≤ now1) (h12 : now1 ≤ now2) :
    currentBlend startT now1 ≤ currentBlend startT now2 ∧
    0 ≤ currentBlend startT now1 ∧
    currentBlend startT now1 ≤ 1 ∧
    (startT + satInterpDuration ≤ now1 → currentBlend startT now1 = 1) := by
  have hd : (0 : ℝ) < satInterpDuration := by norm_num [satInterpDuration]
  refine ⟨?_, ?_, ?_, ?_⟩
  · exact min_le_min le_rfl
      ((div_le_div_iff_of_pos_right hd).mpr (by linarith))
  · exact le_min (by norm_num) (div_nonneg (by linarith) (le_of_lt hd))
  · exact min_le_left _ _
  · intro hlate
    unfold currentBlend
    exact min_eq_left ((le_div_iff₀ hd).mpr (by
      unfold satInterpDuration at hlate ⊢; linarith))

/-- Witness for C5 at startTime 1 with reads at 2 and 3. -/
theorem blend_monotone_clamped_wit :
    0 ≤ currentBlend 1 2 ∧ currentBlend 1 2 = 1 :=
  ⟨(blend_monotone_clamped 1 2 3 (by norm_num) (by norm_num)).2.1,
   (blend_monotone_clamped 1 2 3 (by norm_num) (by norm_num)).2.2.2
     (by norm_num [satInterpDuration])⟩

/-- Claim C3: installing a new buffer into a store whose prev and next
buffers exist with the incoming buffer's length leaves prev equal to the
pre-call next, next equal to the supplied buffer, the blend uniform reset
to 0 and the clock restarted at the install time. -/
theorem install_slides_buffers (s : SatStore) (arr : List ℝ) (now : ℝ)
    (p n : List ℝ) (hp : s.prev = some p) (hn : s.next = some n)
    (hr : s.pointsReady = true)
    (hlp : p.length = arr.length) (hln : n.length = arr.length) :
    positionsHandler s arr now =
      some ⟨some arr, some n, some arr, 0, now, true⟩ := by
  have h1 : fset p n = some n := by
    unfold fset
    rw [if_pos (by omega)]
    have hd : p.drop n.length = [] := by
      have he : n.length = p.length := by omega
      rw [he, List.drop_length]
    rw [hd, List.append_nil]
  have h2 : fset n arr = some arr := by
    unfold fset
    rw [if_pos (by omega)]
    have hd : n.drop arr.length = [] := by
      rw [← hln, List.drop_length]
    rw [hd, List.append_nil]
  simp [positionsHandler, hp, hn, hr, h1, h2]

/-- Witness for C3: a concrete matching-length install. -/
theorem install_slides_buffers_wit :
    positionsHandler ⟨some [0, 0, 0], some [1, 2, 3], some [4, 5, 6], 1, 0, true⟩
        [7, 8, 9] 5 =
      some ⟨some [7, 8, 9], some [4, 5, 6], some [7, 8, 9], 0, 5, true⟩ :=
  install_slides_buffers _ [7, 8, 9] 5 [1, 2, 3] [4, 5, 6] rfl rfl rfl rfl rfl

/-- Claim C7: a successful propagation writes the point obtained from the
geodetic latitude and longitude by the fixed-radius spherical mapping, and
every such point has norm 1.1. -/
theorem success_projection_norm (sat : TleEntry → SatOutcome) (e : TleEntry)
    (lat lon : ℝ) (hl : (falsy e.tle1 || falsy e.tle2) = false)
    (hs : sat e = .geo lat lon) :
    workerEntry sat e = project lat lon ∧
    project lat lon =
      (1.1 * Real.sin ((90 - lat * 180 / Real.pi) * (Real.pi / 180)) *
         Real.cos ((lon * 180 / Real.pi + 180) * (Real.pi / 180)),
       1.1 * Real.cos ((90 - lat * 180 / Real.pi) * (Real.pi / 180)),
       1.1 * Real.sin ((90 - lat * 180 / Real.pi) * (Real.pi / 180)) *
         Real.sin ((lon * 180 / Real.pi + 180) * (Real.pi / 180))) ∧
    Real.sqrt ((project lat lon).1 ^ 2 + (project lat lon).2.1 ^ 2 +
      (project lat lon).2.2 ^ 2) = 1.1 := by
  refine ⟨by simp [workerEntry, hl, hs], rfl, ?_⟩
  set phi := (90 - lat * 180 / Real.pi) * (Real.pi / 180) with hphi
  set theta := (lon * 180 / Real.pi + 180) * (Real.pi / 180) with htheta
  have hproj : project lat lon =
      (1.1 * Real.sin phi * Real.cos theta, 1.1 * Real.cos phi,
        1.1 * Real.sin phi * Real.sin theta) := rfl
  rw [hproj]
  have key : (1.1 * Real.sin phi * Real.cos theta) ^ 2 +
      (1.1 * Real.cos phi) ^ 2 +
      (1.1 * Real.sin phi * Real.sin theta) ^ 2 = 1.1 ^ 2 := by
    have h1 := Real.sin_sq_add_cos_sq phi
    have h2 := Real.sin_sq_add_cos_sq theta
    nlinarith [h1, h2]
  show Real.sqrt ((1.1 * Real.sin phi * Real.cos theta) ^ 2 +
      (1.1 * Real.cos phi) ^ 2 +
      (1.1 * Real.sin phi * Real.sin theta) ^ 2) = 1.1
  rw [key]
  exact Real.sqrt_sq (by norm_num)

/-- Witness for C7 at geodetic (0, 0) on an entry with both lines. -/
theorem success_projection_norm_wit :
    workerEntry satGeoK ⟨"ISS", some "1 25544", some "2 25544"⟩ =
      project 0 0 ∧
    Real.sqrt ((project 0 0).1 ^ 2 + (project 0 0).2.1 ^ 2 +
      (project 0 0).2.2 ^ 2) = 1.1 :=
  ⟨(success_projection_norm satGeoK ⟨"ISS", some "1 25544", some "2 25544"⟩
      0 0 (by decide) rfl).1,
   (success_projection_norm satGeoK ⟨"ISS", some "1 25544", some "2 25544"⟩
      0 0 (by decide) rfl).2.2⟩

/-- Length of the parsed entry list: one entry per complete non-blank
triplet. -/
theorem parseTriples_length_aux :
    ∀ ls : List String, (∀ l ∈ ls, l.isEmpty = false) →
      (parseTriples ls).length = ls.length / 3
  | [], _ => by simp [parseTriples]
  | [a], _ => by simp [parseTriples]
  | [a, b], _ => by simp [parseTriples]
  | a :: b :: c :: rest, h => by
    have hb : b.isEmpty = false := h b (by simp)
    have hc : c.isEmpty = false := h c (by simp)
    have ih := parseTriples_length_aux rest (fun l hl => h l (by simp [hl]))
    simp [parseTriples, hb, hc, ih]
    omega

/-- Every parsed entry carries non-falsy line1 and line2. -/
theorem parseTriples_entries :
    ∀ ls : List String, (∀ l ∈ ls, l.isEmpty = false) →
      ∀ e ∈ parseTriples ls, falsy e.tle1 = false ∧ falsy e.tle2 = false
  | [], _ => by simp [parseTriples]
  | [a], _ => by simp [parseTriples]
  | [a, b], _ => by simp [parseTriples]
  | a :: b :: c :: rest, h => by
    have hb : b.isEmpty = false := h b (by simp)
    have hc : c.isEmpty = false := h c (by simp)
    intro e he
    simp [parseTriples, hb, hc] at he
    rcases he with he | he
    · subst he
      exact ⟨by simp [falsy, hb], by simp [falsy, hc]⟩
    · exact parseTriples_entries rest (fun l hl => h l (by simp [hl])) e he

/-- Appending lines that trim to blank does not change the preprocessed
line list. -/
theorem fetchLinesPipeline_append_blanks (raw blanks : List String)
    (hb : ∀ b ∈ blanks, (b.trim).isEmpty = true) :
    fetchLinesPipeline (raw ++ blanks) = fetchLinesPipeline raw := by
  unfold fetchLinesPipeline
  rw [List.map_append, List.filter_append]
  have hnil : (blanks.map String.trim).filter (fun l => !l.isEmpty) = [] := by
    rw [List.filter_eq_nil_iff]
    intro a ha
    simp only [List.mem_map] at ha
    obtain ⟨b, hbm, rfl⟩ := ha
    simp [hb b hbm]
  rw [hnil, List.append_nil]

/-- Claim C8: the element-set parser takes non-blank trimmed lines in
groups of three in order, tolerates trailing blank lines, stops at the
first incomplete triplet, and every parsed entry has non-empty line1 and
line2. -/
theorem fetch_parse_triplets (ls raw blanks rest : List String)
    (name l1 l2 : String)
    (hls : ∀ l ∈ ls, l.isEmpty = false)
    (hb : ∀ b ∈ blanks, (b.trim).isEmpty = true) :
    (parseTriples ls).length = ls.length / 3 ∧
    (∀ e ∈ parseTriples ls, falsy e.tle1 = false ∧ falsy e.tle2 = false) ∧
    (l1.isEmpty = false → l2.isEmpty = false →
      parseTriples (name :: l1 :: l2 :: rest) =
        ⟨name, some l1, some l2⟩ :: parseTriples rest) ∧
    fetchParse (raw ++ blanks) = fetchParse raw := by
  refine ⟨parseTriples_length_aux ls hls, parseTriples_entries ls hls, ?_, ?_⟩
  · intro h1 h2
    simp [parseTriples, h1, h2]
  · unfold fetchParse
    rw [fetchLinesPipeline_append_blanks raw blanks hb]

/-- Witness for C8 on a four-line input: one complete triplet, one
leftover line. -/
theorem fetch_parse_triplets_wit :
    (parseTriples ["ISS (ZARYA)", "1 25544U", "2 25544", "LEFTOVER"]).length =
      (["ISS (ZARYA)", "1 25544U", "2 25544", "LEFTOVER"] : List String).length / 3 :=
  (fetch_parse_triplets ["ISS (ZARYA)", "1 25544U", "2 25544", "LEFTOVER"]
    ["X"] [] [] "n" "a" "b" (by decide) (by simp)).1

/-- Once a worker id is terminated, not current, and below the fresh-id
counter, no run of the lifecycle machine ever posts to it again. -/
theorem workerRun_no_resend (w : ℕ) (evs : List WEv) : ∀ s : WState,
    w ∈ s.terminated → s.current ≠ some w → w < s.nextId →
    (workerRun s evs).current ≠ some w ∧
    w ∈ (workerRun s evs).terminated ∧
    (workerRun s evs).sent.count w = s.sent.count w ∧
    w < (workerRun s evs).nextId := by
  induction evs with
  | nil => intro s h1 h2 h3; exact ⟨h2, h1, rfl, h3⟩
  | cons e evs ih =>
    intro s h1 h2 h3
    have hstep : (workerStep s e).sent.count w = s.sent.count w ∧
        w ∈ (workerStep s e).terminated ∧
        (workerStep s e).current ≠ some w ∧
        w < (workerStep s e).nextId := by
      cases e with
      | readyMsg w2 b =>
        simp only [workerStep]
        by_cases hc : s.current = some w2 ∧ b = false
        · rw [if_pos hc]
          exact ⟨rfl, List.mem_cons_of_mem _ h1, by simp, h3⟩
        · rw [if_neg hc]
          exact ⟨rfl, h1, h2, h3⟩
      | tick =>
        cases hcur : s.current with
        | none =>
          have hse : workerStep s .tick =
              { s with fallbackRuns := s.fallbackRuns + 1 } := by
            simp [workerStep, hcur]
          rw [hse]
          exact ⟨rfl, h1, h2, h3⟩
        | some u =>
          have hu : u ≠ w := fun hq => h2 (by rw [hcur, hq])
          have hse : workerStep s .tick = { s with sent := u :: s.sent } := by
            simp [workerStep, hcur]
          rw [hse]
          refine ⟨?_, h1, h2, h3⟩
          simp [List.count_cons, hu]
      | create =>
        cases hcur : s.current with
        | some u =>
          have hse : workerStep s .create = s := by simp [workerStep, hcur]
          rw [hse]
          exact ⟨rfl, h1, h2, h3⟩
        | none =>
          have hse : workerStep s .create =
              { s with current := some s.nextId, nextId := s.nextId + 1 } := by
            simp [workerStep, hcur]
          rw [hse]
          refine ⟨rfl, h1, ?_, by show w < s.nextId + 1; omega⟩
          intro hq
          have hnw : s.nextId = w := by simpa using hq
          omega
    obtain ⟨hc1, hc2, hc3, hc4⟩ := hstep
    obtain ⟨r1, r2, r3, r4⟩ := ih (workerStep s e) hc2 hc3 hc4
    exact ⟨r1, r2, r3.trans hc1, r4⟩

/-- With no worker handle held, a run of timer ticks performs one fallback
propagation per tick and posts no message. -/
theorem workerRun_all_ticks (evs : List WEv) : ∀ s : WState,
    s.current = none → (∀ e ∈ evs, e = .tick) →
    (workerRun s evs).fallbackRuns = s.fallbackRuns + evs.length ∧
    (workerRun s evs).sent = s.sent ∧
    (workerRun s evs).current = none := by
  induction evs with
  | nil => intro s hc _; exact ⟨by simp [workerRun], rfl, hc⟩
  | cons e evs ih =>
    intro s hc hall
    have he : e = .tick := hall e (by simp)
    subst he
    have hse : workerStep s .tick =
        { s with fallbackRuns := s.fallbackRuns + 1 } := by
      simp [workerStep, hc]
    have hrun : workerRun s (.tick :: evs) =
        workerRun (workerStep s .tick) evs := rfl
    obtain ⟨r1, r2, r3⟩ := ih (workerStep s .tick)
      (by rw [hse]; exact hc) (fun e2 he2 => hall e2 (by simp [he2]))
    rw [hrun]
    refine ⟨?_, ?_, r3⟩
    · rw [r1, hse]
      show s.fallbackRuns + 1 + evs.length = s.fallbackRuns + (evs.length + 1)
      omega
    · rw [r2, hse]

/-- Claim C6: a readiness acknowledgment with the library flag down makes
the system terminate and discard that worker instance; afterwards the
discarded instance is never posted another message, and every periodic
update runs the main-thread fallback. -/
theorem worker_discard_and_fallback (w : ℕ) (s : WState) (evs : List WEv) :
    (s.current = some w →
      (workerStep s (.readyMsg w false)).current = none ∧
      w ∈ (workerStep s (.readyMsg w false)).terminated) ∧
    (w ∈ s.terminated → s.current ≠ some w → w < s.nextId →
      (workerRun s evs).current ≠ some w ∧
      w ∈ (workerRun s evs).terminated ∧
      (workerRun s evs).sent.count w = s.sent.count w) ∧
    (s.current = none → (∀ e ∈ evs, e = .tick) →
      (workerRun s evs).fallbackRuns = s.fallbackRuns + evs.length ∧
      (workerRun s evs).sent = s.sent) := by
  refine ⟨?_, ?_, ?_⟩
  · intro hc
    simp [workerStep, hc]
  · intro h1 h2 h3
    obtain ⟨r1, r2, r3, _⟩ := workerRun_no_resend w evs s h1 h2 h3
    exact ⟨r1, r2, r3⟩
  · intro hc hall
    obtain ⟨r1, r2, _⟩ := workerRun_all_ticks evs s hc hall
    exact ⟨r1, r2⟩

/-- Witness for C6: worker 0 already discarded, two timer ticks follow;
nothing is posted to it and both ticks run the fallback. -/
theorem worker_discard_and_fallback_wit :
    (workerRun ⟨none, [0], [], 0, 1⟩ [.tick, .tick]).sent.count 0 =
      (([] : List ℕ).count 0) ∧
    (workerRun ⟨none, [0], [], 0, 1⟩ [.tick, .tick]).fallbackRuns = 0 + 2 :=
  ⟨((worker_discard_and_fallback 0 ⟨none, [0], [], 0, 1⟩
      [.tick, .tick]).2.1 (by decide) (by decide) (by decide)).2.2,
   (((worker_discard_and_fallback 0 ⟨none, [0], [], 0, 1⟩
      [.tick, .tick]).2.2 rfl (by decide)).1)⟩

/-- Claim C1 counterexample: on an entry whose lines are empty, with no
next buffer allocated, the fallback writes (1.1, 0, 0) while the worker
writes (0, 0, 0), so the two buffers differ. -/
theorem fallback_worker_not_equiv :
    updateTLEPositionsFallbackArr satNullK none
        [⟨"SYNTH-0", some "", some ""⟩] ≠
      workerOut satNullK [⟨"SYNTH-0", some "", some ""⟩] := by
  have hf : falsy (some "") = true := by decide
  simp [updateTLEPositionsFallbackArr, fallbackArrAux, fallbackEntry,
    workerOut, workerEntry, tripleToList, hf, satNullK]
  norm_num

/-- Claim C1 amended: the fallback buffer coincides with the worker buffer
on collections whose entries all have both lines present and whose
propagation never raises (null positions included). -/
theorem fallback_worker_equiv (sat : TleEntry → SatOutcome)
    (nextBuf : Option (List ℝ)) (tleData : List TleEntry)
    (h : ∀ e ∈ tleData,
      (falsy e.tle1 || falsy e.tle2) = false ∧ sat e ≠ .raised) :
    updateTLEPositionsFallbackArr sat nextBuf tleData =
      workerOut sat tleData := by
  suffices haux : ∀ (l : List TleEntry) (i : ℕ),
      (∀ e ∈ l, (falsy e.tle1 || falsy e.tle2) = false ∧ sat e ≠ .raised) →
      fallbackArrAux sat nextBuf i l =
        l.flatMap (fun e => tripleToList (workerEntry sat e)) by
    exact haux tleData 0 h
  intro l
  induction l with
  | nil => intro i _; simp [fallbackArrAux]
  | cons e t ih =>
    intro i hh
    obtain ⟨hlines, hraise⟩ := hh e (by simp)
    have hentry : fallbackEntry sat nextBuf i e = workerEntry sat e := by
      unfold fallbackEntry workerEntry
      rw [hlines]
      simp only [Bool.false_eq_true, if_false]
      cases hse : sat e with
      | geo lat lon => rfl
      | nullPosition => rfl
      | raised => exact absurd hse hraise
    simp only [fallbackArrAux, List.flatMap_cons, hentry]
    rw [ih (i + 1) (fun e2 he2 => hh e2 (by simp [he2]))]

/-- Witness for C1 amended: one well-formed entry whose propagation
reports a missing position; both paths produce the zero slot. -/
theorem fallback_worker_equiv_wit :
    updateTLEPositionsFallbackArr satNullK none tleISSK =
      workerOut satNullK tleISSK :=
  fallback_worker_equiv satNullK none tleISSK (by
    intro e he
    simp only [tleISSK, List.mem_singleton] at he
    subst he
    exact ⟨by decide, by simp [satNullK]⟩)

/-- Claim C2 counterexample: in the fallback batch, an entry with an
absent line1 does not get (0, 0, 0); it keeps the current next-buffer
values. -/
theorem fallback_failure_not_zeroed :
    updateTLEPositionsFallbackArr satNullK (some [5, 6, 7]) [tleAbsentK] =
      [5, 6, 7] ∧
    ([5, 6, 7] : List ℝ) ≠ [0, 0, 0] := by
  constructor
  · have hf : falsy (none : Option String) = true := rfl
    simp [updateTLEPositionsFallbackArr, fallbackArrAux, fallbackEntry,
      tleAbsentK, tripleToList, hf]
  · simp

/-- Claim C2 amended: the worker batch writes exactly (0, 0, 0) for every
failing entry (absent lines, null position, raise); the fallback batch
leaves (0, 0, 0) on a null position but keeps the current next-buffer
values (defaults (1.1, 0, 0) and (0, 0, 0)) for absent lines and raises;
in both batches no per-entry failure escapes: the whole output of length
3 times the collection length is always produced. -/
theorem batch_failure_isolation (sat : TleEntry → SatOutcome)
    (nextBuf : Option (List ℝ)) (tleData : List TleEntry) (e : TleEntry)
    (i : ℕ) (nb : List ℝ) :
    ((falsy e.tle1 || falsy e.tle2) = true → workerEntry sat e = (0, 0, 0)) ∧
    (sat e = .nullPosition → workerEntry sat e = (0, 0, 0)) ∧
    (sat e = .raised → workerEntry sat e = (0, 0, 0)) ∧
    ((falsy e.tle1 || falsy e.tle2) = false → sat e = .nullPosition →
      fallbackEntry sat nextBuf i e = (0, 0, 0)) ∧
    ((falsy e.tle1 || falsy e.tle2) = true →
      fallbackEntry sat (some nb) i e =
        (nb.getD (i * 3) 0, nb.getD (i * 3 + 1) 0, nb.getD (i * 3 + 2) 0) ∧
      fallbackEntry sat none i e = (1.1, 0, 0)) ∧
    (workerOut sat tleData).length = 3 * tleData.length ∧
    (updateTLEPositionsFallbackArr sat nextBuf tleData).length =
      3 * tleData.length := by
  refine ⟨?_, ?_, ?_, ?_, ?_, ?_, ?_⟩
  · intro h
    simp [workerEntry, h]
  · intro h
    unfold workerEntry
    rw [h]
    split <;> rfl
  · intro h
    unfold workerEntry
    rw [h]
    split <;> rfl
  · intro hl hn
    simp [fallbackEntry, hl, hn]
  · intro hl
    constructor <;> simp [fallbackEntry, hl]
  · unfold workerOut
    exact flatMap_const_length _ (fun b => tripleToList_length _) tleData
  · unfold updateTLEPositionsFallbackArr
    exact fallbackArrAux_length sat nextBuf tleData 0

/-- Witness for C2 amended: the worker zeroes an entry with an absent
line and the batch length is preserved. -/
theorem batch_failure_isolation_wit :
    workerEntry satNullK tleAbsentK = (0, 0, 0) ∧
    (workerOut satNullK [tleAbsentK]).length =
      3 * ([tleAbsentK] : List TleEntry).length :=
  ⟨(batch_failure_isolation satNullK none [tleAbsentK] tleAbsentK 0 []).1
      (by decide),
   (batch_failure_isolation satNullK none [tleAbsentK] tleAbsentK 0
      []).2.2.2.2.2.1⟩

/-- Claim C4 counterexample: installing a buffer of length 3 into
allocated buffers of length 6 does not reallocate; it writes the three
incoming scalars over the head of next and keeps its old tail, leaving
the lengths at 6 while the incoming buffer has length 3. -/
theorem install_partial_write :
    positionsHandler
        ⟨none, some [1, 2, 3, 4, 5, 6], some [10, 11, 12, 13, 14, 15],
          1, 0, true⟩ [7, 8, 9] 2 =
      some ⟨some [7, 8, 9], some [10, 11, 12, 13, 14, 15],
        some [7, 8, 9, 13, 14, 15], 0, 2, true⟩ ∧
    ([7, 8, 9] : List ℝ).length ≠ ([7, 8, 9, 13, 14, 15] : List ℝ).length := by
  constructor
  · norm_num [positionsHandler, fset]
  · simp

/-- Claim C4 amended: allocation in fetchTLES seeds both buffers with the
same ring of length 3 times the collection length; a successful install
never reallocates prev or next: their lengths are preserved, prev becomes
the old next padded with its own tail (a plain copy at equal lengths),
and a shorter incoming buffer is written partially over the head of next
with the old tail retained (a longer one raises instead). -/
theorem alloc_reseed_and_install_no_realloc (count : ℕ) (s : SatStore)
    (arr : List ℝ) (now : ℝ) (p n : List ℝ) :
    (ringSeed count).length = 3 * count ∧
    (s.prev = some p → s.next = some n → s.pointsReady = true →
      arr.length ≤ n.length → n.length ≤ p.length →
      positionsHandler s arr now =
        some ⟨some arr, some (n ++ p.drop n.length),
          some (arr ++ n.drop arr.length), 0, now, true⟩ ∧
      (n ++ p.drop n.length).length = p.length ∧
      (arr ++ n.drop arr.length).length = n.length) := by
  constructor
  · have hlen := flatMap_const_length
      (fun i : ℕ =>
        let a := ((i : ℝ) / (count : ℝ)) * Real.pi * 2
        [1.1 * Real.cos a, 1.1 * Real.sin a * 0.1, 1.1 * Real.sin a])
      (fun i => rfl) (List.range count)
    unfold ringSeed
    simpa using hlen
  · intro hp hn hr h1 h2
    have hf1 : fset p n = some (n ++ p.drop n.length) := by
      unfold fset
      rw [if_pos h2]
    have hf2 : fset n arr = some (arr ++ n.drop arr.length) := by
      unfold fset
      rw [if_pos h1]
    refine ⟨?_, ?_, ?_⟩
    · simp [positionsHandler, hp, hn, hr, hf1, hf2]
    · simp only [List.length_append, List.length_drop]
      omega
    · simp only [List.length_append, List.length_drop]
      omega

/-- Witness for C4 amended: a concrete seed and an equal-length install. -/
theorem alloc_reseed_and_install_no_realloc_wit :
    (ringSeed 2).length = 3 * 2 ∧
    positionsHandler ⟨none, some [1, 2], some [3, 4], 0, 0, true⟩ [5, 6] 9 =
      some ⟨some [5, 6],
        some ([3, 4] ++ ([1, 2] : List ℝ).drop ([3, 4] : List ℝ).length),
        some ([5, 6] ++ ([3, 4] : List ℝ).drop ([5, 6] : List ℝ).length),
        0, 9, true⟩ :=
  ⟨(alloc_reseed_and_install_no_realloc 2
      ⟨none, some [1, 2], some [3, 4], 0, 0, true⟩ [5, 6] 9 [1, 2] [3, 4]).1,
   ((alloc_reseed_and_install_no_realloc 2
      ⟨none, some [1, 2], some [3, 4], 0, 0, true⟩ [5, 6] 9 [1, 2]
      [3, 4]).2 rfl rfl rfl (by decide) (by decide)).1⟩

/-- Claim C9 counterexample: the population installed by the element-fetch
failure arm has twelve placeholder entries, not the configured synthetic
count, and its entries carry falsy lines rather than generated orbital
parameters. -/
theorem synth_fallback_count_mismatch :
    synthFallbackTleData.length ≠ SYNTHETIC_SAT_COUNT ∧
    falsy (synthFallbackTleData.getD 0 ⟨"", none, none⟩).tle1 = true := by
  constructor
  · simp [synthFallbackTleData, SYNTHETIC_SAT_COUNT]
  · decide

/-- Claim C9 amended: the synthetic generator builds exactly
SYNTHETIC_SAT_COUNT bodies, unconditionally at startup, with altitude in
[1.05, 1.55), speed in [0.002, 0.012), phase in [0, 2 pi) and inclination
in [0, pi) given unit-interval random draws; each frame advances the
phase by the speed and positions the body by the inclined-circular-orbit
equations; the element-fetch failure arm instead installs twelve static
placeholder entries with falsy lines. -/
theorem synthetic_generator_ranges (rand : ℕ → ℝ) (p : SynthParam)
    (h : ∀ k, 0 ≤ rand k ∧ rand k < 1) :
    (genSyntheticParams rand).length = SYNTHETIC_SAT_COUNT ∧
    (∀ q ∈ genSyntheticParams rand,
      1.05 ≤ q.altitude ∧ q.altitude < 1.55 ∧
      0.002 ≤ q.speed ∧ q.speed < 0.012 ∧
      0 ≤ q.phase ∧ q.phase < 2 * Real.pi ∧
      0 ≤ q.inclination ∧ q.inclination < Real.pi) ∧
    ((animateSyntheticStep p).1.phase = p.phase + p.speed ∧
     (animateSyntheticStep p).2 =
       (p.altitude * Real.cos (p.phase + p.speed),
        p.altitude * Real.sin (p.phase + p.speed) * Real.sin p.inclination,
        p.altitude * Real.sin (p.phase + p.speed) * Real.cos p.inclination)) ∧
    synthFallbackTleData.length = 12 ∧
    (∀ e ∈ synthFallbackTleData,
      falsy e.tle1 = true ∧ falsy e.tle2 = true) := by
  refine ⟨by simp [genSyntheticParams, SYNTHETIC_SAT_COUNT], ?_, ⟨rfl, rfl⟩,
    by simp [synthFallbackTleData], ?_⟩
  · intro q hq
    simp only [genSyntheticParams, List.mem_map] at hq
    obtain ⟨i, _, rfl⟩ := hq
    obtain ⟨ha0, ha1⟩ := h (4 * i)
    obtain ⟨hs0, hs1⟩ := h (4 * i + 1)
    obtain ⟨hp0, hp1⟩ := h (4 * i + 2)
    obtain ⟨hi0, hi1⟩ := h (4 * i + 3)
    have hpi := Real.pi_pos
    refine ⟨by nlinarith, by nlinarith, by nlinarith, by nlinarith,
      ?_, ?_, ?_, ?_⟩
    · show 0 ≤ rand (4 * i + 2) * Real.pi * 2
      positivity
    · show rand (4 * i + 2) * Real.pi * 2 < 2 * Real.pi
      nlinarith
    · show 0 ≤ rand (4 * i + 3) * Real.pi
      positivity
    · show rand (4 * i + 3) * Real.pi < Real.pi
      nlinarith
  · intro e he
    simp only [synthFallbackTleData, List.mem_map] at he
    obtain ⟨i, _, rfl⟩ := he
    exact ⟨rfl, rfl⟩

/-- Witness for C9 amended at the all-zero random stream. -/
theorem synthetic_generator_ranges_wit :
    (genSyntheticParams (fun _ => 0)).length = SYNTHETIC_SAT_COUNT :=
  (synthetic_generator_ranges (fun _ => 0) ⟨1.1, 0.01, 0, 0⟩
    (fun _ => ⟨le_refl 0, zero_lt_one⟩)).1
